import Mathlib

/-!
Verification of the configuration-save pipeline of ddns-go (`web/save.go`).

The Go source is shallowly embedded: `checkAndSave` and its merge loop are
translated into pure Lean functions over explicit state.  External
collaborators that live outside the embedded source (`config.GetConfigCached`,
`conf.CheckPassword`, `conf.SaveConfig`, `util.InitLogLang`, `getDnsConfStr`)
are passed in through an `Env` record or modelled from the specification, as
marked on each definition.
-/

namespace DdnsGo

/-- Whitespace predicate used by Go's `strings.TrimSpace` (ASCII range:
space, tab, newline, vertical tab, form feed, carriage return). -/
def isGoSpace (c : Char) : Bool :=
  c == ' ' || c == '\t' || c == '\n' || c == '\x0b' || c == '\x0c' || c == '\r'

/-- Drop trailing whitespace of a character list. -/
def trimRight (l : List Char) : List Char :=
  (l.reverse.dropWhile isGoSpace).reverse

/-- Drop leading and trailing whitespace of a character list. -/
def trimChars (l : List Char) : List Char :=
  trimRight (l.dropWhile isGoSpace)

/-- Embedding of Go's `strings.TrimSpace`. -/
def TrimSpace (s : String) : String :=
  String.mk (trimChars s.data)

/-- Split a character list at newline characters (accumulator-style). -/
def splitAux : List Char → List Char → List (List Char)
  | [], acc => [acc.reverse]
  | c :: cs, acc =>
      if c = '\n' then acc.reverse :: splitAux cs [] else splitAux cs (c :: acc)

/-- Modelled from the spec: `util.SplitLines` (not under `src/`) — "split
newline-delimited domain-list text into an ordered sequence of domain names,
dropping blank lines". -/
def SplitLines (s : String) : List String :=
  ((splitAux s.data []).map String.mk).filter (fun d => d ≠ "")

/-- Join a list of lines with newline separators (the inverse direction used
when the client echoes a domain list back as newline-delimited text). -/
def joinLines : List String → String
  | [] => ""
  | [d] => d
  | d :: e :: rest => d ++ "\n" ++ joinLines (e :: rest)

/-- Modelled from the spec: the masking rule of `getHideIDSecret`
(`writing.go`, not under `src/`) — a placeholder derived from a real
ID/Secret; the spec's scenario masks `"ABCDEF"` to `"AB****"`, i.e. the
first two characters followed by `"****"`. -/
def hideMask (s : String) : String :=
  String.mk (s.data.take 2 ++ ['*', '*', '*', '*'])

/-- Provider identity block of a domain entry (`config.DNS`). -/
@[ext] structure DNS where
  Name : String
  ID : String
  Secret : String
deriving DecidableEq

/-- IPv4 sub-configuration of a domain entry. -/
@[ext] structure Ipv4Conf where
  Enable : Bool
  GetType : String
  URL : String
  NetInterface : String
  Cmd : String
  Domains : List String
deriving DecidableEq

/-- IPv6 sub-configuration of a domain entry. -/
@[ext] structure Ipv6Conf where
  Enable : Bool
  GetType : String
  URL : String
  NetInterface : String
  Cmd : String
  Ipv6Reg : String
  Domains : List String
deriving DecidableEq

/-- One persisted domain entry (`config.DnsConfig`). -/
@[ext] structure DnsConfig where
  TTL : String
  DNS : DNS
  Ipv4 : Ipv4Conf
  Ipv6 : Ipv6Conf
deriving DecidableEq

/-- The persisted configuration singleton (`config.Config`), restricted to the
fields the save pipeline touches. -/
@[ext] structure Config where
  Username : String
  Password : String
  NotAllowWanAccess : Bool
  WebhookURL : String
  WebhookRequestBody : String
  WebhookHeaders : String
  DnsConf : List DnsConfig
  Lang : String
deriving DecidableEq

/-- Modelled from the spec (fields per §6 and their use in `save.go`): the
client-submitted DTO `dnsConf4JS` (`writing.go`, not under `src/`). -/
@[ext] structure dnsConf4JS where
  DnsName : String
  DnsID : String
  DnsSecret : String
  TTL : String
  Ipv4Enable : Bool
  Ipv4GetType : String
  Ipv4Url : String
  Ipv4NetInterface : String
  Ipv4Cmd : String
  Ipv4Domains : String
  Ipv6Enable : Bool
  Ipv6GetType : String
  Ipv6Url : String
  Ipv6NetInterface : String
  Ipv6Cmd : String
  Ipv6Reg : String
  Ipv6Domains : String
deriving DecidableEq

/-- Masked forms of a persisted entry's ID and Secret, as compared against in
`save.go` (the mask itself is modelled from the spec, see `hideMask`). -/
def getHideIDSecret (c : DnsConfig) : String × String :=
  (hideMask c.DNS.ID, hideMask c.DNS.Secret)

/-- The all-zero-value sentinel DTO (`empty := dnsConf4JS{}` in `save.go`). -/
def emptyDTO : dnsConf4JS :=
  { DnsName := "", DnsID := "", DnsSecret := "", TTL := ""
    Ipv4Enable := false, Ipv4GetType := "", Ipv4Url := "", Ipv4NetInterface := ""
    Ipv4Cmd := "", Ipv4Domains := ""
    Ipv6Enable := false, Ipv6GetType := "", Ipv6Url := "", Ipv6NetInterface := ""
    Ipv6Cmd := "", Ipv6Reg := "", Ipv6Domains := "" }

/-- Lines 98–99 and 120–129 of `save.go` for ID and Secret: trim the
submitted values; when index `k` is within the previously persisted sequence
(`k < len(conf.DnsConf)`, rendered here as the total lookup `prior[k]?`),
compare them with the masked forms of the persisted entry and keep the
persisted real value on a match. -/
def mergeIDSec (prior : List DnsConfig) (k : Nat) (v : dnsConf4JS) : String × String :=
  match prior[k]? with
  | some c =>
      ((if TrimSpace v.DnsID = (getHideIDSecret c).1 then c.DNS.ID
        else TrimSpace v.DnsID),
       (if TrimSpace v.DnsSecret = (getHideIDSecret c).2 then c.DNS.Secret
        else TrimSpace v.DnsSecret))
  | none => (TrimSpace v.DnsID, TrimSpace v.DnsSecret)

/-- Body of the merge loop of `checkAndSave` (`save.go` lines 95–131) for a
single non-sentinel DTO at input index `k`, merging against the previously
persisted sequence `prior`. -/
def mergeOne (prior : List DnsConfig) (k : Nat) (v : dnsConf4JS) : DnsConfig :=
  { TTL := v.TTL
    DNS := { Name := v.DnsName, ID := (mergeIDSec prior k v).1
             Secret := (mergeIDSec prior k v).2 }
    Ipv4 := { Enable := v.Ipv4Enable, GetType := v.Ipv4GetType
              URL := TrimSpace v.Ipv4Url, NetInterface := v.Ipv4NetInterface
              Cmd := TrimSpace v.Ipv4Cmd, Domains := SplitLines v.Ipv4Domains }
    Ipv6 := { Enable := v.Ipv6Enable, GetType := v.Ipv6GetType
              URL := TrimSpace v.Ipv6Url, NetInterface := v.Ipv6NetInterface
              Cmd := TrimSpace v.Ipv6Cmd, Ipv6Reg := TrimSpace v.Ipv6Reg
              Domains := SplitLines v.Ipv6Domains } }

/-- The merge loop of `checkAndSave` (`save.go` lines 91–132): walks the
submitted DTOs with their input index `k`, skips sentinel DTOs, records the
ordinal `k+1` of each warning logged for a DTO whose two domain text fields
are both empty, and collects the merged entries in input order. -/
def mergeLoop (prior : List DnsConfig) : Nat → List dnsConf4JS → List DnsConfig × List Nat
  | _, [] => ([], [])
  | k, v :: rest =>
      if v = emptyDTO then mergeLoop prior (k + 1) rest
      else
        let res := mergeLoop prior (k + 1) rest
        (mergeOne prior k v :: res.1,
         if v.Ipv4Domains = "" ∧ v.Ipv6Domains = "" then (k + 1) :: res.2 else res.2)

/-- Modelled from the spec: the masked-form DTO the UI echoes back for a
persisted entry (rendering side, `writing.go`, not under `src/`) — "each
entry's ID and Secret replaced by their masked forms, every other field
echoed back", domain lists re-joined as newline-delimited text. -/
def maskDTO (c : DnsConfig) : dnsConf4JS :=
  { DnsName := c.DNS.Name, DnsID := hideMask c.DNS.ID
    DnsSecret := hideMask c.DNS.Secret, TTL := c.TTL
    Ipv4Enable := c.Ipv4.Enable, Ipv4GetType := c.Ipv4.GetType
    Ipv4Url := c.Ipv4.URL, Ipv4NetInterface := c.Ipv4.NetInterface
    Ipv4Cmd := c.Ipv4.Cmd, Ipv4Domains := joinLines c.Ipv4.Domains
    Ipv6Enable := c.Ipv6.Enable, Ipv6GetType := c.Ipv6.GetType
    Ipv6Url := c.Ipv6.URL, Ipv6NetInterface := c.Ipv6.NetInterface
    Ipv6Cmd := c.Ipv6.Cmd, Ipv6Reg := c.Ipv6.Ipv6Reg
    Ipv6Domains := joinLines c.Ipv6.Domains }

/-- External collaborators of `checkAndSave` that live outside the embedded
source, passed in as parameters: the password policy (`conf.CheckPassword`,
returning the hash or a weak-password error string), the durable write
(`conf.SaveConfig`, `none` on success, `some errString` on failure), locale
selection (`util.InitLogLang`), the JSON encoder of the domain list
(`getDnsConfStr`), and the two wall-clock readings `time.Now().Unix()` and
`startTime`. -/
structure Env where
  checkPassword : Config → String → Except String String
  saveConfig : Config → Option String
  initLogLang : String → String
  getDnsConfStr : List DnsConfig → String
  nowUnix : Int
  startTime : Int

/-- Modelled from the spec: the process-wide mutable state the save pipeline
touches — the cached configuration returned by `config.GetConfigCached`
(`none` means the load failed, i.e. first run) and the
`util.ForceCompareGlobal` flag. -/
structure ServerState where
  cachedConf : Option Config
  forceCompare : Bool
deriving DecidableEq

/-- The decoded JSON body of a save request plus its `Accept-Language`
header (`save.go` lines 34–42 and 53). -/
structure SaveRequest where
  Username : String
  Password : String
  NotAllowWanAccess : Bool
  WebhookURL : String
  WebhookRequestBody : String
  WebhookHeaders : String
  DnsConf : List dnsConf4JS
  acceptLanguage : String

/-- Result of one `checkAndSave` run: the result string, the state after the
request, how many times `conf.SaveConfig` and `go dns.RunOnce()` were
invoked, and the ordinals of the "no domains" warnings logged. -/
structure SaveOutcome where
  result : String
  state : ServerState
  saveCalls : Nat
  runOnceCalls : Nat
  warnings : List Nat

/-- The Go zero value of `config.Config` (what `GetConfigCached` yields
alongside an error on first run). -/
def defaultConfig : Config :=
  { Username := "", Password := "", NotAllowWanAccess := false
    WebhookURL := "", WebhookRequestBody := "", WebhookHeaders := ""
    DnsConf := [], Lang := "" }

/-- Message of `save.go` line 47. Localization (`util.LogStr`) is modelled
from the spec as the identity on the canonical message. -/
def parseErrMsg : String := "数据解析失败, 请刷新页面重试"

/-- Message of `save.go` line 59 (bootstrap window expired, nothing ever
persisted). -/
def bootstrapMsg : String := "请在ddns-go启动后 5 分钟内完成初始化配置"

/-- Message of `save.go` line 64 (credentials never set; only settable within
the bootstrap window). -/
def credsWindowMsg : String := "之前未设置帐号密码, 仅允许在ddns-go启动后 5 分钟内设置, 请重启ddns-go"

/-- Message of `save.go` line 85 (missing username/password). -/
def missingCredMsg : String := "必须输入登录用户名/密码"

/-- The working configuration at the start of a request: the cached one (zero
value on first run) with `Lang` set from the `Accept-Language` header
(`save.go` lines 30 and 52–54). -/
def langConf (env : Env) (st : ServerState) (data : SaveRequest) : Config :=
  { st.cachedConf.getD defaultConfig with Lang := env.initLogLang data.acceptLanguage }

/-- A rejection: the result message with no state change and no effects. -/
def reject (st : ServerState) (msg : String) : SaveOutcome :=
  { result := msg, state := st, saveCalls := 0, runOnceCalls := 0, warnings := [] }

/-- Field assignments of `save.go` lines 68–74: WAN-access flag, trimmed
webhook settings, trimmed username. -/
def applyBasics (conf : Config) (data : SaveRequest) : Config :=
  { conf with
      NotAllowWanAccess := data.NotAllowWanAccess
      WebhookURL := TrimSpace data.WebhookURL
      WebhookRequestBody := TrimSpace data.WebhookRequestBody
      WebhookHeaders := TrimSpace data.WebhookHeaders
      Username := TrimSpace data.Username }

/-- Credential merge of `save.go` lines 68–81: apply the basic fields, then,
when the submitted password is non-empty, validate and hash it (an empty
submitted password keeps the existing hash). -/
def mergeCreds (env : Env) (conf : Config) (data : SaveRequest) : Except String Config :=
  let conf := applyBasics conf data
  if data.Password = "" then .ok conf
  else
    match env.checkPassword conf data.Password with
    | .error e => .error e
    | .ok hashed => .ok { conf with Password := hashed }

/-- The configuration handed to the durable write: the credential-merged one
with its `DnsConf` replaced by the merge loop's output (`save.go` line 133). -/
def savedConf (conf : Config) (data : SaveRequest) : Config :=
  { conf with DnsConf := (mergeLoop conf.DnsConf 0 data.DnsConf).1 }

/-- Continuation of `checkAndSave` after the credential merge (`save.go`
lines 83–146): missing-credentials check, merge loop, durable write, force
flag, one `RunOnce` start, result string.  The cached configuration after the
write is modelled from the spec (§7: even on a failed write "the in-memory
configuration already reflects the attempted change"). -/
def afterCreds (env : Env) (st : ServerState) (conf : Config) (data : SaveRequest) : SaveOutcome :=
  if conf.Username = "" ∨ conf.Password = "" then reject st missingCredMsg
  else
    { result := (env.saveConfig (savedConf conf data)).getD "ok"
      state := { cachedConf := some (savedConf conf data), forceCompare := true }
      saveCalls := 1
      runOnceCalls := 1
      warnings := (mergeLoop conf.DnsConf 0 data.DnsConf).2 }

/-- The pipeline after the bootstrap guard (`save.go` lines 68–146). -/
def afterGuard (env : Env) (st : ServerState) (conf : Config) (data : SaveRequest) : SaveOutcome :=
  match mergeCreds env conf data with
  | .error e => reject st e
  | .ok conf' => afterCreds env st conf' data

/-- Embedding of `checkAndSave` (`save.go` lines 29–147).  `req = none`
models a body that failed to decode. -/
def checkAndSave (env : Env) (st : ServerState) (req : Option SaveRequest) : SaveOutcome :=
  match req with
  | none => reject st parseErrMsg
  | some data =>
      if 300 < env.nowUnix - env.startTime then
        if st.cachedConf.isNone then reject st bootstrapMsg
        else if ((langConf env st data).Username = "" ∧ (langConf env st data).Password = "") ∧
                (TrimSpace data.Username ≠ "" ∨ data.Password ≠ "") then
          reject st credsWindowMsg
        else afterGuard env st (langConf env st data) data
      else afterGuard env st (langConf env st data) data

/-- The bootstrap guard (lines 57–66) does not reject the request: either the
window is still open, or a configuration exists and the request is not a
first-time credential grab. -/
def guardPasses (env : Env) (st : ServerState) (data : SaveRequest) : Prop :=
  300 < env.nowUnix - env.startTime →
    (st.cachedConf.isNone = false ∧
     ¬(((langConf env st data).Username = "" ∧ (langConf env st data).Password = "") ∧
       (TrimSpace data.Username ≠ "" ∨ data.Password ≠ "")))

instance (env : Env) (st : ServerState) (data : SaveRequest) :
    Decidable (guardPasses env st data) := by
  unfold guardPasses; infer_instance

/-- The JSON response of the `Save` handler, field-level view of
`{"result": ..., "dnsConf": ...}` (`save.go` line 24). -/
structure HTTPResponse where
  result : String
  dnsConf : String

/-- Embedding of the `Save` handler (`save.go` lines 17–27): run
`checkAndSave`, then encode the now-cached domain list when the result is
`"ok"` and `"[]"` otherwise. -/
def Save (env : Env) (st : ServerState) (req : Option SaveRequest) :
    HTTPResponse × ServerState :=
  let out := checkAndSave env st req
  let dnsConfJsonStr :=
    if out.result = "ok" then
      env.getDnsConfStr ((out.state.cachedConf.getD defaultConfig).DnsConf)
    else "[]"
  ({ result := out.result, dnsConf := dnsConfJsonStr }, out.state)

/-- A well-formed domain-list line: non-empty and newline-free (the shape of
every `SplitLines` output element). -/
def goodLine (d : String) : Prop := d ≠ "" ∧ '\n' ∉ d.data

/-- Shape invariant of every entry the merge loop produces: ID and Secret
have trim-stable masked forms, the trimmed fields are trim-fixed, and the
domain lists consist of well-formed lines. -/
def wellFormedEntry (c : DnsConfig) : Prop :=
  TrimSpace (hideMask c.DNS.ID) = hideMask c.DNS.ID ∧
  TrimSpace (hideMask c.DNS.Secret) = hideMask c.DNS.Secret ∧
  TrimSpace c.Ipv4.URL = c.Ipv4.URL ∧
  TrimSpace c.Ipv4.Cmd = c.Ipv4.Cmd ∧
  TrimSpace c.Ipv6.URL = c.Ipv6.URL ∧
  TrimSpace c.Ipv6.Cmd = c.Ipv6.Cmd ∧
  TrimSpace c.Ipv6.Ipv6Reg = c.Ipv6.Ipv6Reg ∧
  (∀ d ∈ c.Ipv4.Domains, goodLine d) ∧
  (∀ d ∈ c.Ipv6.Domains, goodLine d)

/-! ## Basic facts about the string helpers -/

lemma data_mk (l : List Char) : (String.mk l).data = l := rfl

lemma mk_data (s : String) : String.mk s.data = s := rfl

lemma dropWhile_dropWhile (p : Char → Bool) (l : List Char) :
    List.dropWhile p (List.dropWhile p l) = List.dropWhile p l := by
  induction l with
  | nil => rfl
  | cons c t ih =>
      cases h : p c with
      | true => simpa [List.dropWhile_cons, h] using ih
      | false => simp [List.dropWhile_cons, h]

lemma dropWhile_head_false (p : Char → Bool) (l : List Char) (c : Char) (t : List Char)
    (h : List.dropWhile p l = c :: t) : p c = false := by
  induction l generalizing c t with
  | nil => simp at h
  | cons a l ih =>
      rw [List.dropWhile_cons] at h
      by_cases ha : p a = true
      · rw [if_pos ha] at h; exact ih c t h
      · rw [if_neg ha] at h
        cases h
        simpa using ha

lemma dropWhile_getLast? (p : Char → Bool) (l : List Char)
    (h : List.dropWhile p l ≠ []) :
    (List.dropWhile p l).getLast? = l.getLast? := by
  obtain ⟨t, ht⟩ := List.dropWhile_suffix (l := l) p
  calc (List.dropWhile p l).getLast?
      = (t ++ List.dropWhile p l).getLast? := (List.getLast?_append_of_ne_nil t h).symm
    _ = l.getLast? := by rw [ht]

lemma trimChars_head (l : List Char) (c : Char) (t : List Char)
    (h : trimChars l = c :: t) : isGoSpace c = false := by
  unfold trimChars trimRight at h
  have h2 : ((l.dropWhile isGoSpace).reverse.dropWhile isGoSpace).getLast? = some c := by
    rw [← List.head?_reverse, h]; rfl
  have hne : (l.dropWhile isGoSpace).reverse.dropWhile isGoSpace ≠ [] := by
    intro h0
    rw [h0] at h2
    exact Option.noConfusion h2
  rw [dropWhile_getLast? _ _ hne, List.getLast?_reverse] at h2
  cases hm : l.dropWhile isGoSpace with
  | nil => rw [hm] at h2; exact Option.noConfusion h2
  | cons a t2 =>
      rw [hm] at h2
      simp only [List.head?_cons, Option.some.injEq] at h2
      subst h2
      exact dropWhile_head_false _ _ _ _ hm

lemma trimChars_last (l : List Char) (c : Char)
    (h : (trimChars l).getLast? = some c) : isGoSpace c = false := by
  unfold trimChars trimRight at h
  rw [List.getLast?_reverse] at h
  cases hm : (l.dropWhile isGoSpace).reverse.dropWhile isGoSpace with
  | nil => rw [hm] at h; exact Option.noConfusion h
  | cons a t2 =>
      rw [hm] at h
      simp only [List.head?_cons, Option.some.injEq] at h
      subst h
      exact dropWhile_head_false _ _ _ _ hm

lemma trimChars_head?_false (l : List Char) (c : Char)
    (h : (trimChars l).head? = some c) : isGoSpace c = false := by
  cases ht : trimChars l with
  | nil => rw [ht] at h; exact Option.noConfusion h
  | cons a t =>
      rw [ht] at h
      simp only [List.head?_cons, Option.some.injEq] at h
      subst h
      exact trimChars_head l a t ht

lemma dropWhile_eq_self_of_head (p : Char → Bool) (l : List Char)
    (h : ∀ c, l.head? = some c → p c = false) : List.dropWhile p l = l := by
  cases l with
  | nil => rfl
  | cons a t => rw [List.dropWhile_cons, if_neg (by simp [h a rfl])]

lemma trimChars_of_ends (l : List Char)
    (h1 : ∀ c, l.head? = some c → isGoSpace c = false)
    (h2 : ∀ c, l.getLast? = some c → isGoSpace c = false) :
    trimChars l = l := by
  unfold trimChars trimRight
  rw [dropWhile_eq_self_of_head _ _ h1]
  rw [dropWhile_eq_self_of_head _ _
    (fun c hc => h2 c (by rw [← List.head?_reverse]; exact hc))]
  exact List.reverse_reverse l

lemma trimChars_idem (l : List Char) : trimChars (trimChars l) = trimChars l := by
  apply trimChars_of_ends
  · intro c hc
    exact trimChars_head?_false l c hc
  · intro c hc
    exact trimChars_last l c hc

lemma TrimSpace_idem (s : String) : TrimSpace (TrimSpace s) = TrimSpace s := by
  unfold TrimSpace
  rw [data_mk, trimChars_idem]

lemma hideMask_ne_empty (s : String) : hideMask s ≠ "" := by
  intro h
  have h2 : (hideMask s).data = [] := by rw [h]
  unfold hideMask at h2
  rw [data_mk] at h2
  simp at h2

lemma hideMask_trimStable (s : String)
    (h : ∀ c, s.data.head? = some c → isGoSpace c = false) :
    TrimSpace (hideMask s) = hideMask s := by
  unfold TrimSpace hideMask
  rw [data_mk]
  congr 1
  apply trimChars_of_ends
  · intro c hc
    cases hd : s.data with
    | nil =>
        rw [hd] at hc
        simp only [List.take_nil, List.nil_append, List.head?_cons,
          Option.some.injEq] at hc
        rw [← hc]
        decide
    | cons a t =>
        rw [hd] at hc
        simp only [List.take_succ_cons, List.cons_append, List.head?_cons,
          Option.some.injEq] at hc
        rw [← hc]
        exact h a (by rw [hd]; rfl)
  · intro c hc
    rw [List.getLast?_append_of_ne_nil _ (by simp)] at hc
    have h4 : (['*', '*', '*', '*'] : List Char).getLast? = some '*' := rfl
    rw [h4, Option.some.injEq] at hc
    rw [← hc]
    decide

lemma hideMask_TrimSpace_stable (x : String) :
    TrimSpace (hideMask (TrimSpace x)) = hideMask (TrimSpace x) :=
  hideMask_trimStable _ (fun c hc => trimChars_head?_false x.data c hc)

lemma hideMask_stable_of_eq_trim (cid x : String) (h : hideMask cid = TrimSpace x) :
    TrimSpace (hideMask cid) = hideMask cid := by
  rw [h, TrimSpace_idem]

/-! ## Splitting and joining domain lists -/

lemma splitAux_no_newline (cs : List Char) : ∀ acc, '\n' ∉ acc →
    ∀ l ∈ splitAux cs acc, '\n' ∉ l := by
  induction cs with
  | nil =>
      intro acc hacc l hl
      simp only [splitAux, List.mem_singleton] at hl
      subst hl
      simpa using hacc
  | cons c cs ih =>
      intro acc hacc l hl
      by_cases hc : c = '\n'
      · simp only [splitAux, if_pos hc, List.mem_cons] at hl
        rcases hl with hl | hl
        · subst hl; simpa using hacc
        · exact ih [] (by simp) l hl
      · simp only [splitAux, if_neg hc] at hl
        refine ih (c :: acc) ?_ l hl
        intro hm
        rcases List.mem_cons.mp hm with hm | hm
        · exact hc hm.symm
        · exact hacc hm

lemma SplitLines_goodLine (s : String) : ∀ d ∈ SplitLines s, goodLine d := by
  intro d hd
  unfold SplitLines at hd
  rw [List.mem_filter] at hd
  obtain ⟨hmem, hne⟩ := hd
  rw [List.mem_map] at hmem
  obtain ⟨l, hl, rfl⟩ := hmem
  refine ⟨by simpa using hne, ?_⟩
  rw [data_mk]
  exact splitAux_no_newline s.data [] (by simp) l hl

lemma splitAux_no_nl_eq (cs : List Char) : ∀ acc, '\n' ∉ cs →
    splitAux cs acc = [acc.reverse ++ cs] := by
  induction cs with
  | nil => intro acc _; simp [splitAux]
  | cons c cs ih =>
      intro acc h
      have hc : ¬ c = '\n' := fun e => h (e ▸ List.mem_cons_self c cs)
      simp only [splitAux, if_neg hc]
      rw [ih (c :: acc) (fun hm => h (List.mem_cons_of_mem _ hm))]
      simp

lemma splitAux_split_at_nl (cs1 cs2 : List Char) : ∀ acc, '\n' ∉ cs1 →
    splitAux (cs1 ++ '\n' :: cs2) acc = (acc.reverse ++ cs1) :: splitAux cs2 [] := by
  induction cs1 with
  | nil => intro acc _; simp [splitAux]
  | cons c cs ih =>
      intro acc h
      have hc : ¬ c = '\n' := fun e => h (e ▸ List.mem_cons_self c cs)
      simp only [List.cons_append, splitAux, if_neg hc, List.append_eq]
      rw [ih (c :: acc) (fun hm => h (List.mem_cons_of_mem _ hm))]
      simp

lemma SplitLines_joinLines : ∀ ds : List String, (∀ d ∈ ds, goodLine d) →
    SplitLines (joinLines ds) = ds := by
  intro ds
  induction ds with
  | nil => intro _; rfl
  | cons d rest ih =>
      intro h
      have hd : goodLine d := h d (List.mem_cons_self _ _)
      cases rest with
      | nil =>
          show SplitLines (joinLines [d]) = [d]
          have hjd : joinLines [d] = d := rfl
          rw [hjd]
          unfold SplitLines
          rw [splitAux_no_nl_eq d.data [] hd.2]
          simp [mk_data, hd.1]
      | cons e rest' =>
          have hx : (joinLines (d :: e :: rest')).data
              = d.data ++ '\n' :: (joinLines (e :: rest')).data := by
            show ((d ++ "\n") ++ joinLines (e :: rest')).data = _
            rw [String.data_append, String.data_append]
            simp
          have ht := ih (fun x hx2 => h x (List.mem_cons_of_mem _ hx2))
          unfold SplitLines at ht ⊢
          rw [hx, splitAux_split_at_nl _ _ [] hd.2]
          simp only [List.reverse_nil, List.nil_append, List.map_cons, mk_data,
            List.filter_cons]
          rw [if_pos (by simpa using hd.1), ht]

/-! ## The merge loop -/

lemma mergeIDSec_some (prior : List DnsConfig) (k : Nat) (v : dnsConf4JS) (c : DnsConfig)
    (hk : prior[k]? = some c) :
    mergeIDSec prior k v =
      ((if TrimSpace v.DnsID = (getHideIDSecret c).1 then c.DNS.ID
        else TrimSpace v.DnsID),
       (if TrimSpace v.DnsSecret = (getHideIDSecret c).2 then c.DNS.Secret
        else TrimSpace v.DnsSecret)) := by
  unfold mergeIDSec
  rw [hk]

lemma mergeIDSec_none (prior : List DnsConfig) (k : Nat) (v : dnsConf4JS)
    (hk : prior[k]? = none) :
    mergeIDSec prior k v = (TrimSpace v.DnsID, TrimSpace v.DnsSecret) := by
  unfold mergeIDSec
  rw [hk]

lemma mergeLoop_cons_skip (prior : List DnsConfig) (k : Nat) (v : dnsConf4JS)
    (rest : List dnsConf4JS) (h : v = emptyDTO) :
    mergeLoop prior k (v :: rest) = mergeLoop prior (k + 1) rest := by
  simp [mergeLoop, h]

lemma mergeLoop_cons_keep (prior : List DnsConfig) (k : Nat) (v : dnsConf4JS)
    (rest : List dnsConf4JS) (h : v ≠ emptyDTO) :
    mergeLoop prior k (v :: rest) =
      (mergeOne prior k v :: (mergeLoop prior (k + 1) rest).1,
       if v.Ipv4Domains = "" ∧ v.Ipv6Domains = "" then
         (k + 1) :: (mergeLoop prior (k + 1) rest).2
       else (mergeLoop prior (k + 1) rest).2) := by
  simp [mergeLoop, h]

lemma mergeLoop_fst_cons_keep (prior : List DnsConfig) (k : Nat) (v : dnsConf4JS)
    (rest : List dnsConf4JS) (h : v ≠ emptyDTO) :
    (mergeLoop prior k (v :: rest)).1 =
      mergeOne prior k v :: (mergeLoop prior (k + 1) rest).1 := by
  rw [mergeLoop_cons_keep prior k v rest h]

lemma mergeLoop_snd_cons_keep (prior : List DnsConfig) (k : Nat) (v : dnsConf4JS)
    (rest : List dnsConf4JS) (h : v ≠ emptyDTO) :
    (mergeLoop prior k (v :: rest)).2 =
      (if v.Ipv4Domains = "" ∧ v.Ipv6Domains = "" then
        (k + 1) :: (mergeLoop prior (k + 1) rest).2
       else (mergeLoop prior (k + 1) rest).2) := by
  rw [mergeLoop_cons_keep prior k v rest h]

lemma mergeLoop_fst_eq (prior : List DnsConfig) : ∀ (dtos : List dnsConf4JS) (k : Nat),
    (mergeLoop prior k dtos).1 =
      (List.enumFrom k dtos).filterMap
        (fun kv => if kv.2 = emptyDTO then none else some (mergeOne prior kv.1 kv.2)) := by
  intro dtos
  induction dtos with
  | nil => intro k; rfl
  | cons v rest ih =>
      intro k
      simp only [List.enumFrom]
      by_cases hv : v = emptyDTO
      · rw [mergeLoop_cons_skip prior k v rest hv,
          List.filterMap_cons_none (by simp [hv])]
        exact ih (k + 1)
      · rw [mergeLoop_fst_cons_keep prior k v rest hv]
        simp only [List.filterMap_cons, if_neg hv]
        rw [ih (k + 1)]

lemma mergeLoop_snd_eq (prior : List DnsConfig) : ∀ (dtos : List dnsConf4JS) (k : Nat),
    (mergeLoop prior k dtos).2 =
      (List.enumFrom k dtos).filterMap
        (fun kv => if kv.2 ≠ emptyDTO ∧ kv.2.Ipv4Domains = "" ∧ kv.2.Ipv6Domains = ""
                   then some (kv.1 + 1) else none) := by
  intro dtos
  induction dtos with
  | nil => intro k; rfl
  | cons v rest ih =>
      intro k
      simp only [List.enumFrom]
      by_cases hv : v = emptyDTO
      · rw [mergeLoop_cons_skip prior k v rest hv,
          List.filterMap_cons_none (by simp [hv])]
        exact ih (k + 1)
      · by_cases hw : v.Ipv4Domains = "" ∧ v.Ipv6Domains = ""
        · rw [mergeLoop_snd_cons_keep prior k v rest hv, if_pos hw]
          simp only [List.filterMap_cons, if_pos (And.intro hv (And.intro hw.1 hw.2))]
          rw [ih (k + 1)]
        · rw [mergeLoop_snd_cons_keep prior k v rest hv, if_neg hw,
            List.filterMap_cons_none (by simp [hv, hw])]
          exact ih (k + 1)

lemma mergeLoop_mem (prior : List DnsConfig) : ∀ (dtos : List dnsConf4JS) (k : Nat)
    (c : DnsConfig), c ∈ (mergeLoop prior k dtos).1 → ∃ j v, c = mergeOne prior j v := by
  intro dtos
  induction dtos with
  | nil => intro k c hc; simp [mergeLoop] at hc
  | cons v rest ih =>
      intro k c hc
      by_cases hv : v = emptyDTO
      · rw [mergeLoop_cons_skip prior k v rest hv] at hc
        exact ih (k + 1) c hc
      · rw [mergeLoop_fst_cons_keep prior k v rest hv] at hc
        rcases List.mem_cons.mp hc with hc | hc
        · exact ⟨k, v, hc⟩
        · exact ih (k + 1) c hc

/-! ## Re-merging the masked form of a merge output (idempotence) -/

lemma mergeOne_wellFormed (prior : List DnsConfig) (k : Nat) (v : dnsConf4JS) :
    wellFormedEntry (mergeOne prior k v) := by
  have hID : TrimSpace (hideMask (mergeIDSec prior k v).1)
      = hideMask (mergeIDSec prior k v).1 := by
    cases hk : prior[k]? with
    | none =>
        rw [mergeIDSec_none prior k v hk]
        exact hideMask_TrimSpace_stable v.DnsID
    | some c =>
        rw [mergeIDSec_some prior k v c hk]
        by_cases h : TrimSpace v.DnsID = (getHideIDSecret c).1
        · simp only [if_pos h]
          exact hideMask_stable_of_eq_trim _ _ h.symm
        · simp only [if_neg h]
          exact hideMask_TrimSpace_stable v.DnsID
  have hSec : TrimSpace (hideMask (mergeIDSec prior k v).2)
      = hideMask (mergeIDSec prior k v).2 := by
    cases hk : prior[k]? with
    | none =>
        rw [mergeIDSec_none prior k v hk]
        exact hideMask_TrimSpace_stable v.DnsSecret
    | some c =>
        rw [mergeIDSec_some prior k v c hk]
        by_cases h : TrimSpace v.DnsSecret = (getHideIDSecret c).2
        · simp only [if_pos h]
          exact hideMask_stable_of_eq_trim _ _ h.symm
        · simp only [if_neg h]
          exact hideMask_TrimSpace_stable v.DnsSecret
  exact ⟨hID, hSec, TrimSpace_idem _, TrimSpace_idem _, TrimSpace_idem _,
    TrimSpace_idem _, TrimSpace_idem _,
    SplitLines_goodLine v.Ipv4Domains, SplitLines_goodLine v.Ipv6Domains⟩

lemma getElem?_of_drop : ∀ (l : List DnsConfig) (j : Nat) (c : DnsConfig)
    (t : List DnsConfig), l.drop j = c :: t → l[j]? = some c := by
  intro l j
  induction j generalizing l with
  | zero => intro c t h; simp only [List.drop_zero] at h; rw [h]; simp
  | succ j ih =>
      intro c t h
      cases l with
      | nil => simp at h
      | cons a l' =>
          rw [List.drop_succ_cons] at h
          simpa using ih l' c t h

lemma mergeOne_maskDTO (full : List DnsConfig) (j : Nat) (c : DnsConfig)
    (hj : full[j]? = some c) (hwf : wellFormedEntry c) :
    mergeOne full j (maskDTO c) = c := by
  obtain ⟨hid, hsec, hu4, hc4, hu6, hc6, hreg, hd4, hd6⟩ := hwf
  have hIS : mergeIDSec full j (maskDTO c) = (c.DNS.ID, c.DNS.Secret) := by
    rw [mergeIDSec_some full j (maskDTO c) c hj]
    have h1 : TrimSpace (maskDTO c).DnsID = (getHideIDSecret c).1 := hid
    have h2 : TrimSpace (maskDTO c).DnsSecret = (getHideIDSecret c).2 := hsec
    rw [if_pos h1, if_pos h2]
  show ({ TTL := (maskDTO c).TTL
          DNS := { Name := (maskDTO c).DnsName, ID := (mergeIDSec full j (maskDTO c)).1
                   Secret := (mergeIDSec full j (maskDTO c)).2 }
          Ipv4 := _, Ipv6 := _ } : DnsConfig) = c
  rw [hIS]
  exact DnsConfig.ext rfl (DNS.ext rfl rfl rfl)
    (Ipv4Conf.ext rfl rfl hu4 rfl hc4 (SplitLines_joinLines _ hd4))
    (Ipv6Conf.ext rfl rfl hu6 rfl hc6 hreg (SplitLines_joinLines _ hd6))

lemma maskDTO_ne_empty (c : DnsConfig) : maskDTO c ≠ emptyDTO := by
  intro h
  have h2 : (maskDTO c).DnsID = emptyDTO.DnsID := by rw [h]
  exact hideMask_ne_empty c.DNS.ID h2

lemma remerge_aux (full : List DnsConfig) (hwf : ∀ c ∈ full, wellFormedEntry c) :
    ∀ (rest : List DnsConfig) (j : Nat), full.drop j = rest →
      (mergeLoop full j (rest.map maskDTO)).1 = rest := by
  intro rest
  induction rest with
  | nil => intro j _; rfl
  | cons c rest' ih =>
      intro j hdrop
      have hj : full[j]? = some c := getElem?_of_drop full j c rest' hdrop
      have hc : c ∈ full :=
        List.drop_subset j full (hdrop ▸ List.mem_cons_self c rest')
      have hdrop' : full.drop (j + 1) = rest' := by
        rw [← List.drop_drop 1 j full, hdrop]
        rfl
      rw [List.map_cons,
        mergeLoop_fst_cons_keep full j (maskDTO c) (rest'.map maskDTO) (maskDTO_ne_empty c),
        mergeOne_maskDTO full j c hj (hwf c hc), ih (j + 1) hdrop']

/-- Re-submitting the masked form of any merge output re-merges to the same
sequence. -/
lemma remerge_fixed (prior : List DnsConfig) (dtos : List dnsConf4JS) :
    (mergeLoop (mergeLoop prior 0 dtos).1 0
      (((mergeLoop prior 0 dtos).1).map maskDTO)).1 = (mergeLoop prior 0 dtos).1 := by
  apply remerge_aux
  · intro c hc
    obtain ⟨j, v, rfl⟩ := mergeLoop_mem prior dtos 0 c hc
    exact mergeOne_wellFormed prior j v
  · rfl

/-! ## Path lemmas for `checkAndSave` -/

lemma afterCreds_reject (env : Env) (st : ServerState) (conf : Config) (data : SaveRequest)
    (h : conf.Username = "" ∨ conf.Password = "") :
    afterCreds env st conf data = reject st missingCredMsg := by
  unfold afterCreds
  rw [if_pos h]

lemma afterCreds_save (env : Env) (st : ServerState) (conf : Config) (data : SaveRequest)
    (h1 : conf.Username ≠ "") (h2 : conf.Password ≠ "") :
    afterCreds env st conf data =
      { result := (env.saveConfig (savedConf conf data)).getD "ok"
        state := { cachedConf := some (savedConf conf data), forceCompare := true }
        saveCalls := 1
        runOnceCalls := 1
        warnings := (mergeLoop conf.DnsConf 0 data.DnsConf).2 } := by
  unfold afterCreds
  rw [if_neg (by push_neg; exact ⟨h1, h2⟩)]

lemma afterGuard_error (env : Env) (st : ServerState) (conf : Config) (data : SaveRequest)
    (e : String) (h : mergeCreds env conf data = .error e) :
    afterGuard env st conf data = reject st e := by
  unfold afterGuard
  rw [h]

lemma afterGuard_ok (env : Env) (st : ServerState) (conf : Config) (data : SaveRequest)
    (c : Config) (h : mergeCreds env conf data = .ok c) :
    afterGuard env st conf data = afterCreds env st c data := by
  unfold afterGuard
  rw [h]

lemma checkAndSave_none (env : Env) (st : ServerState) :
    checkAndSave env st none = reject st parseErrMsg := rfl

lemma checkAndSave_some (env : Env) (st : ServerState) (data : SaveRequest) :
    checkAndSave env st (some data) =
      (if 300 < env.nowUnix - env.startTime then
        if st.cachedConf.isNone then reject st bootstrapMsg
        else if ((langConf env st data).Username = "" ∧
                 (langConf env st data).Password = "") ∧
                (TrimSpace data.Username ≠ "" ∨ data.Password ≠ "") then
          reject st credsWindowMsg
        else afterGuard env st (langConf env st data) data
      else afterGuard env st (langConf env st data) data) := rfl

lemma checkAndSave_bootstrap (env : Env) (st : ServerState) (data : SaveRequest)
    (ht : 300 < env.nowUnix - env.startTime) (hf : st.cachedConf = none) :
    checkAndSave env st (some data) = reject st bootstrapMsg := by
  rw [checkAndSave_some, if_pos ht, if_pos (by rw [hf]; rfl)]

lemma checkAndSave_credsWindow (env : Env) (st : ServerState) (data : SaveRequest)
    (ht : 300 < env.nowUnix - env.startTime) (hf : st.cachedConf.isNone = false)
    (hcond : ((langConf env st data).Username = "" ∧ (langConf env st data).Password = "") ∧
      (TrimSpace data.Username ≠ "" ∨ data.Password ≠ "")) :
    checkAndSave env st (some data) = reject st credsWindowMsg := by
  rw [checkAndSave_some, if_pos ht, if_neg (by simp [hf]), if_pos hcond]

lemma checkAndSave_passes (env : Env) (st : ServerState) (data : SaveRequest)
    (h : guardPasses env st data) :
    checkAndSave env st (some data) = afterGuard env st (langConf env st data) data := by
  rw [checkAndSave_some]
  by_cases ht : 300 < env.nowUnix - env.startTime
  · obtain ⟨h1, h2⟩ := h ht
    rw [if_pos ht, if_neg (by simp [h1]), if_neg h2]
  · rw [if_neg ht]

lemma checkAndSave_guard_reject (env : Env) (st : ServerState) (data : SaveRequest)
    (h : ¬ guardPasses env st data) :
    checkAndSave env st (some data) = reject st bootstrapMsg ∨
    checkAndSave env st (some data) = reject st credsWindowMsg := by
  unfold guardPasses at h
  push_neg at h
  obtain ⟨ht, h2⟩ := h
  by_cases hb : st.cachedConf.isNone
  · exact Or.inl (checkAndSave_bootstrap env st data ht (Option.isNone_iff_eq_none.mp hb))
  · have hb' : st.cachedConf.isNone = false := by
      cases h0 : st.cachedConf.isNone
      · rfl
      · exact absurd h0 hb
    exact Or.inr (checkAndSave_credsWindow env st data ht hb' (h2 hb'))

/-- A `mergeCreds` error is a password-policy error. -/
lemma mergeCreds_error (env : Env) (conf : Config) (data : SaveRequest) (e : String)
    (h : mergeCreds env conf data = .error e) :
    env.checkPassword (applyBasics conf data) data.Password = .error e := by
  simp only [mergeCreds] at h
  by_cases hp : data.Password = ""
  · rw [if_pos hp] at h
    exact absurd h (by simp)
  · rw [if_neg hp] at h
    cases hcp : env.checkPassword (applyBasics conf data) data.Password with
    | error e2 =>
        rw [hcp] at h
        simp only [Except.error.injEq] at h
        rw [h]
    | ok hashed =>
        rw [hcp] at h
        exact absurd h (by simp)

/-- The shapes a `checkAndSave` run can take: a rejection (with one of the
four fixed messages or a password-policy error) leaving the state untouched
with no effects, or the full save with its effects. -/
lemma checkAndSave_cases (env : Env) (st : ServerState) (req : Option SaveRequest) :
    (∃ msg, checkAndSave env st req = reject st msg ∧
      (msg = parseErrMsg ∨ msg = bootstrapMsg ∨ msg = credsWindowMsg ∨
       msg = missingCredMsg ∨
       ∃ data, req = some data ∧
         mergeCreds env (langConf env st data) data = .error msg)) ∨
    (∃ data conf, req = some data ∧ conf.Username ≠ "" ∧ conf.Password ≠ "" ∧
      mergeCreds env (langConf env st data) data = .ok conf ∧
      checkAndSave env st req = afterCreds env st conf data) := by
  cases req with
  | none => exact Or.inl ⟨parseErrMsg, rfl, Or.inl rfl⟩
  | some data =>
      by_cases hg : guardPasses env st data
      · rw [checkAndSave_passes env st data hg]
        cases hmc : mergeCreds env (langConf env st data) data with
        | error e =>
            exact Or.inl ⟨e, afterGuard_error env st _ data e hmc,
              Or.inr (Or.inr (Or.inr (Or.inr ⟨data, rfl, hmc⟩)))⟩
        | ok conf =>
            by_cases hcr : conf.Username = "" ∨ conf.Password = ""
            · refine Or.inl ⟨missingCredMsg, ?_, Or.inr (Or.inr (Or.inr (Or.inl rfl)))⟩
              rw [afterGuard_ok env st _ data conf hmc,
                afterCreds_reject env st conf data hcr]
            · push_neg at hcr
              exact Or.inr ⟨data, conf, rfl, hcr.1, hcr.2, hmc,
                afterGuard_ok env st _ data conf hmc⟩
      · rcases checkAndSave_guard_reject env st data hg with h | h
        · exact Or.inl ⟨bootstrapMsg, h, Or.inr (Or.inl rfl)⟩
        · exact Or.inl ⟨credsWindowMsg, h, Or.inr (Or.inr (Or.inl rfl))⟩

/-! ## Concrete sample data used by the witnesses -/

/-- A persisted domain entry whose ID is the spec's scenario value. -/
def sampleEntry : DnsConfig :=
  { TTL := "600"
    DNS := { Name := "cloudflare", ID := "ABCDEF", Secret := "SECRET01" }
    Ipv4 := { Enable := true, GetType := "url", URL := "http://v4.test"
              NetInterface := "", Cmd := "", Domains := ["example.com"] }
    Ipv6 := { Enable := false, GetType := "url", URL := "", NetInterface := ""
              Cmd := "", Ipv6Reg := "", Domains := [] } }

/-- A submitted DTO echoing the masked ID `"AB****"` and a fresh secret. -/
def sampleDTO : dnsConf4JS :=
  { emptyDTO with
      DnsName := "cloudflare", DnsID := "AB****", DnsSecret := "ZZZZZZ"
      TTL := "600", Ipv4Enable := true, Ipv4GetType := "url"
      Ipv4Url := "http://v4.test", Ipv4Domains := "example.com" }

/-- A benign environment: every password hashes fine, the write succeeds,
the window is still open. -/
def sampleEnv : Env :=
  { checkPassword := fun _ p => .ok ("hash:" ++ p)
    saveConfig := fun _ => none
    initLogLang := fun _ => "en"
    getDnsConfStr := fun l => toString l.length
    nowUnix := 100
    startTime := 0 }

/-- Same environment with the bootstrap window already expired. -/
def envLate : Env := { sampleEnv with nowUnix := 400 }

/-- First-run state: nothing was ever persisted. -/
def stNone : ServerState := { cachedConf := none, forceCompare := false }

/-- A persisted configuration whose credentials were never set. -/
def stNeverSet : ServerState := { cachedConf := some defaultConfig, forceCompare := false }

/-- A request that sets a username but no password. -/
def sampleReq : SaveRequest :=
  { Username := "admin", Password := "", NotAllowWanAccess := true
    WebhookURL := "", WebhookRequestBody := "", WebhookHeaders := ""
    DnsConf := [sampleDTO], acceptLanguage := "en" }

/-- The same request with a password. -/
def reqPwd : SaveRequest := { sampleReq with Password := "Secret123" }

/-! ## Claims about the merge engine -/

/-- C1: for every index `k` of the submitted DTO sequence that also exists in
the previously persisted `DnsConfig` sequence (`prior[k]? = some c`), the
merged entry's ID equals the persisted real ID when the submitted (trimmed)
ID equals the masked form of the persisted entry's ID, and the submitted
(trimmed) value otherwise; the same rule holds independently for Secret. -/
theorem C1_secret_preservation (prior : List DnsConfig) (k : Nat) (c : DnsConfig)
    (v : dnsConf4JS) (hk : prior[k]? = some c) :
    (mergeOne prior k v).DNS.ID =
      (if TrimSpace v.DnsID = (getHideIDSecret c).1 then c.DNS.ID
       else TrimSpace v.DnsID) ∧
    (mergeOne prior k v).DNS.Secret =
      (if TrimSpace v.DnsSecret = (getHideIDSecret c).2 then c.DNS.Secret
       else TrimSpace v.DnsSecret) := by
  have h := mergeIDSec_some prior k v c hk
  constructor
  · show (mergeIDSec prior k v).1 = _
    rw [h]
  · show (mergeIDSec prior k v).2 = _
    rw [h]

/-- Witness for C1 at the spec's scenario: persisted ID `"ABCDEF"` (masked
`"AB****"`) is kept when `"AB****"` is echoed back, while the fresh secret
`"ZZZZZZ"` replaces the old one. -/
theorem C1_witness :
    ([sampleEntry][0]? = some sampleEntry) ∧
    ((mergeOne [sampleEntry] 0 sampleDTO).DNS.ID =
      (if TrimSpace sampleDTO.DnsID = (getHideIDSecret sampleEntry).1
       then sampleEntry.DNS.ID else TrimSpace sampleDTO.DnsID) ∧
     (mergeOne [sampleEntry] 0 sampleDTO).DNS.Secret =
      (if TrimSpace sampleDTO.DnsSecret = (getHideIDSecret sampleEntry).2
       then sampleEntry.DNS.Secret else TrimSpace sampleDTO.DnsSecret)) :=
  ⟨by decide, C1_secret_preservation [sampleEntry] 0 sampleEntry sampleDTO (by decide)⟩

/-- C10: the persisted entry is read only under the bound check
`k < len(conf.DnsConf)` (total lookup `prior[k]?` in this embedding); at or
beyond the persisted length secret preservation is skipped and the merged ID
and Secret are the submitted trimmed values, even if they coincide with some
masked form. -/
theorem C10_no_preservation_out_of_range (prior : List DnsConfig) (k : Nat)
    (v : dnsConf4JS) (hk : prior.length ≤ k) :
    (mergeOne prior k v).DNS.ID = TrimSpace v.DnsID ∧
    (mergeOne prior k v).DNS.Secret = TrimSpace v.DnsSecret := by
  have h := mergeIDSec_none prior k v (List.getElem?_eq_none hk)
  constructor
  · show (mergeIDSec prior k v).1 = _
    rw [h]
  · show (mergeIDSec prior k v).2 = _
    rw [h]

/-- Witness for C10: at index 1, beyond the single persisted entry, the
submitted ID `"AB****"` — though it coincides with the masked form of the
entry at index 0 — is taken verbatim (trimmed), not replaced. -/
theorem C10_witness :
    ([sampleEntry] : List DnsConfig).length ≤ 1 ∧
    sampleDTO.DnsID = (getHideIDSecret sampleEntry).1 ∧
    (mergeOne [sampleEntry] 1 sampleDTO).DNS.ID = TrimSpace sampleDTO.DnsID ∧
    (mergeOne [sampleEntry] 1 sampleDTO).DNS.Secret = TrimSpace sampleDTO.DnsSecret :=
  ⟨by decide, by decide,
   (C10_no_preservation_out_of_range [sampleEntry] 1 sampleDTO (by decide)).1,
   (C10_no_preservation_out_of_range [sampleEntry] 1 sampleDTO (by decide)).2⟩

/-- C4: the merge output is the input DTO sequence enumerated in order, with
every all-zero-value sentinel DTO dropped (no output entry) and every other
DTO mapped to exactly one output entry; `filterMap` preserves the relative
order of the survivors. -/
theorem C4_sentinel_filter (dtos : List dnsConf4JS) (prior : List DnsConfig) :
    (mergeLoop prior 0 dtos).1 =
      dtos.enum.filterMap
        (fun kv => if kv.2 = emptyDTO then none else some (mergeOne prior kv.1 kv.2)) :=
  mergeLoop_fst_eq prior dtos 0

/-- A DTO whose domain text fields split to empty lists without being the
empty string: `"\n"` splits to no lines at all. -/
def c8dto : dnsConf4JS := { emptyDTO with DnsName := "dns1", Ipv4Domains := "\n" }

/-- C8 counterexample: a non-sentinel DTO whose IPv4 and IPv6 domain lists
are both empty after splitting and dropping blank lines (`Ipv4Domains` is
`"\n"`), yet the merge loop logs no warning for it, because `save.go` line
101 compares the raw text fields against `""` rather than the split lists.
The entry is still included in the output. -/
theorem C8_counterexample :
    c8dto ≠ emptyDTO ∧
    SplitLines c8dto.Ipv4Domains = [] ∧
    SplitLines c8dto.Ipv6Domains = [] ∧
    (mergeLoop [] 0 [c8dto]).2 = [] ∧
    (mergeLoop [] 0 [c8dto]).1 = [mergeOne [] 0 c8dto] := by
  refine ⟨by decide, by decide, by decide, by decide, by decide⟩

/-- C8 (amended): the warning fires exactly for the non-sentinel DTOs whose
IPv4 and IPv6 domain *text fields* are both the empty string (not for every
DTO whose lists merely split to empty), it identifies the entry by the
ordinal `k+1` of its input position, and it never blocks the entry (the
merged output still contains every non-sentinel DTO in order, independent of
the warnings). -/
theorem C8_amended_warning_rule (prior : List DnsConfig) (dtos : List dnsConf4JS) :
    (mergeLoop prior 0 dtos).2 =
      dtos.enum.filterMap
        (fun kv => if kv.2 ≠ emptyDTO ∧ kv.2.Ipv4Domains = "" ∧ kv.2.Ipv6Domains = ""
                   then some (kv.1 + 1) else none) ∧
    (mergeLoop prior 0 dtos).1 =
      dtos.enum.filterMap
        (fun kv => if kv.2 = emptyDTO then none else some (mergeOne prior kv.1 kv.2)) :=
  ⟨mergeLoop_snd_eq prior dtos 0, mergeLoop_fst_eq prior dtos 0⟩

/-! ## Claims about the save pipeline -/

/-- C2: after more than five minutes of uptime, a save with no configuration
ever persisted is rejected with the bootstrap-window message; a save against
a persisted configuration whose username and password are both empty that
submits a non-empty username or password is rejected with the
credentials-never-set message; within five minutes of process start the
bootstrap guard contributes nothing, the pipeline continues past it. -/
theorem C2_bootstrap_window (env : Env) (st : ServerState) (data : SaveRequest) :
    (300 < env.nowUnix - env.startTime → st.cachedConf = none →
      (checkAndSave env st (some data)).result = bootstrapMsg) ∧
    (∀ conf, 300 < env.nowUnix - env.startTime → st.cachedConf = some conf →
      conf.Username = "" → conf.Password = "" →
      (TrimSpace data.Username ≠ "" ∨ data.Password ≠ "") →
      (checkAndSave env st (some data)).result = credsWindowMsg) ∧
    (env.nowUnix - env.startTime ≤ 300 →
      checkAndSave env st (some data) = afterGuard env st (langConf env st data) data) := by
  refine ⟨?_, ?_, ?_⟩
  · intro ht hf
    rw [checkAndSave_bootstrap env st data ht hf]
    rfl
  · intro conf ht hc hu hp hsub
    have hf : st.cachedConf.isNone = false := by rw [hc]; rfl
    have hlu : (langConf env st data).Username = "" := by
      show (st.cachedConf.getD defaultConfig).Username = ""
      rw [hc]
      exact hu
    have hlp : (langConf env st data).Password = "" := by
      show (st.cachedConf.getD defaultConfig).Password = ""
      rw [hc]
      exact hp
    rw [checkAndSave_credsWindow env st data ht hf ⟨⟨hlu, hlp⟩, hsub⟩]
    rfl
  · intro hle
    exact checkAndSave_passes env st data (fun ht => absurd ht (not_lt.mpr hle))

/-- Witness for C2: at `T0+400s` with nothing persisted the result is the
bootstrap message; at `T0+400s` with empty stored credentials and a submitted
username the result is the credentials-never-set message; at `T0+100s` the
guard is a no-op. -/
theorem C2_witness :
    (checkAndSave envLate stNone (some sampleReq)).result = bootstrapMsg ∧
    (checkAndSave envLate stNeverSet (some sampleReq)).result = credsWindowMsg ∧
    checkAndSave sampleEnv stNone (some sampleReq) =
      afterGuard sampleEnv stNone (langConf sampleEnv stNone sampleReq) sampleReq :=
  ⟨(C2_bootstrap_window envLate stNone sampleReq).1 (by decide) rfl,
   (C2_bootstrap_window envLate stNeverSet sampleReq).2.1 defaultConfig (by decide)
     rfl rfl rfl (Or.inl (by decide)),
   (C2_bootstrap_window sampleEnv stNone sampleReq).2.2 (by decide)⟩

/-- C3: a request that fails the password-strength check (`mergeCreds`
errors) or the post-merge credentials check leaves the whole server state —
in particular every field of the cached configuration, including
`NotAllowWanAccess`, the webhook settings and `Username` — exactly as it was,
and never reaches the durable write. -/
theorem C3_no_mutation_on_failure (env : Env) (st : ServerState) (data : SaveRequest)
    (h : (∃ e, mergeCreds env (langConf env st data) data = .error e) ∨
         (∃ c, mergeCreds env (langConf env st data) data = .ok c ∧
           (c.Username = "" ∨ c.Password = ""))) :
    (checkAndSave env st (some data)).state = st ∧
    (checkAndSave env st (some data)).saveCalls = 0 ∧
    (checkAndSave env st (some data)).state.cachedConf.map Config.Username =
      st.cachedConf.map Config.Username ∧
    (checkAndSave env st (some data)).state.cachedConf.map Config.NotAllowWanAccess =
      st.cachedConf.map Config.NotAllowWanAccess ∧
    (checkAndSave env st (some data)).state.cachedConf.map Config.WebhookURL =
      st.cachedConf.map Config.WebhookURL ∧
    (checkAndSave env st (some data)).state.cachedConf.map Config.WebhookRequestBody =
      st.cachedConf.map Config.WebhookRequestBody ∧
    (checkAndSave env st (some data)).state.cachedConf.map Config.WebhookHeaders =
      st.cachedConf.map Config.WebhookHeaders := by
  have hst : (checkAndSave env st (some data)).state = st ∧
      (checkAndSave env st (some data)).saveCalls = 0 := by
    by_cases hg : guardPasses env st data
    · rw [checkAndSave_passes env st data hg]
      rcases h with ⟨e, he⟩ | ⟨c, hc, hcr⟩
      · rw [afterGuard_error env st _ data e he]
        exact ⟨rfl, rfl⟩
      · rw [afterGuard_ok env st _ data c hc, afterCreds_reject env st c data hcr]
        exact ⟨rfl, rfl⟩
    · rcases checkAndSave_guard_reject env st data hg with h1 | h1 <;>
        rw [h1] <;> exact ⟨rfl, rfl⟩
  refine ⟨hst.1, hst.2, ?_, ?_, ?_, ?_, ?_⟩ <;> rw [hst.1]

/-- An environment whose password policy rejects everything. -/
def envWeak : Env := { sampleEnv with checkPassword := fun _ _ => .error "weak password" }

/-- Witness for C3: under a rejecting password policy, a request with a
non-empty password leaves state, save counter and all configuration fields
untouched. -/
theorem C3_witness :
    (checkAndSave envWeak stNeverSet (some reqPwd)).state = stNeverSet ∧
    (checkAndSave envWeak stNeverSet (some reqPwd)).saveCalls = 0 ∧
    (checkAndSave envWeak stNeverSet (some reqPwd)).state.cachedConf.map Config.Username =
      stNeverSet.cachedConf.map Config.Username ∧
    (checkAndSave envWeak stNeverSet (some reqPwd)).state.cachedConf.map Config.NotAllowWanAccess =
      stNeverSet.cachedConf.map Config.NotAllowWanAccess ∧
    (checkAndSave envWeak stNeverSet (some reqPwd)).state.cachedConf.map Config.WebhookURL =
      stNeverSet.cachedConf.map Config.WebhookURL ∧
    (checkAndSave envWeak stNeverSet (some reqPwd)).state.cachedConf.map Config.WebhookRequestBody =
      stNeverSet.cachedConf.map Config.WebhookRequestBody ∧
    (checkAndSave envWeak stNeverSet (some reqPwd)).state.cachedConf.map Config.WebhookHeaders =
      stNeverSet.cachedConf.map Config.WebhookHeaders :=
  C3_no_mutation_on_failure envWeak stNeverSet reqPwd
    (Or.inl ⟨"weak password", rfl⟩)

/-- C5: whenever `checkAndSave` answers `"ok"` (under a password policy whose
error strings are never the literal `"ok"`), the cached configuration's
username and password hash are both non-empty; and when the merged
credentials leave either empty, the save fails with the missing-credentials
message, touches nothing, and persists nothing. -/
theorem C5_nonempty_credentials (env : Env) (st : ServerState) (data : SaveRequest)
    (hcp : ∀ c p e, env.checkPassword c p = .error e → e ≠ "ok") :
    ((checkAndSave env st (some data)).result = "ok" →
      ∃ c, (checkAndSave env st (some data)).state.cachedConf = some c ∧
        c.Username ≠ "" ∧ c.Password ≠ "") ∧
    (∀ c, mergeCreds env (langConf env st data) data = .ok c →
      (c.Username = "" ∨ c.Password = "") → guardPasses env st data →
      (checkAndSave env st (some data)).result = missingCredMsg ∧
      (checkAndSave env st (some data)).saveCalls = 0 ∧
      (checkAndSave env st (some data)).state = st) := by
  constructor
  · intro hok
    rcases checkAndSave_cases env st (some data) with
      ⟨msg, hr, hm⟩ | ⟨d2, conf, hd2, hu, hp, hmc, hr⟩
    · rw [hr] at hok
      have hmok : msg = "ok" := hok
      rcases hm with h1 | h1 | h1 | h1 | ⟨d2, _, h1⟩
      · rw [h1] at hmok; exact absurd hmok (by decide)
      · rw [h1] at hmok; exact absurd hmok (by decide)
      · rw [h1] at hmok; exact absurd hmok (by decide)
      · rw [h1] at hmok; exact absurd hmok (by decide)
      · exact absurd hmok (hcp _ _ _ (mergeCreds_error env _ d2 msg h1))
    · rw [hr, afterCreds_save env st conf d2 hu hp]
      exact ⟨savedConf conf d2, rfl, hu, hp⟩
  · intro c hmc hcr hg
    rw [checkAndSave_passes env st data hg, afterGuard_ok env st _ data c hmc,
      afterCreds_reject env st c data hcr]
    exact ⟨rfl, rfl, rfl⟩

/-- Witness for C5: a first-run save with username and password yields a
cached configuration with non-empty credentials; the same request without a
password fails with the missing-credentials message and persists nothing. -/
theorem C5_witness :
    (∃ c, (checkAndSave sampleEnv stNone (some reqPwd)).state.cachedConf = some c ∧
      c.Username ≠ "" ∧ c.Password ≠ "") ∧
    ((checkAndSave sampleEnv stNone (some sampleReq)).result = missingCredMsg ∧
     (checkAndSave sampleEnv stNone (some sampleReq)).saveCalls = 0 ∧
     (checkAndSave sampleEnv stNone (some sampleReq)).state = stNone) :=
  ⟨(C5_nonempty_credentials sampleEnv stNone reqPwd
      (fun _ _ _ h => by simp [sampleEnv] at h)).1 (by decide),
   (C5_nonempty_credentials sampleEnv stNone sampleReq
      (fun _ _ _ h => by simp [sampleEnv] at h)).2
     (applyBasics (langConf sampleEnv stNone sampleReq) sampleReq)
     rfl (Or.inr (by decide)) (by decide)⟩

/-- C6: a request that passes the parse, the bootstrap guard, the password
policy and the credentials check invokes the durable write exactly once and —
whatever that write returns — sets the force-recompute flag and starts
exactly one synchronization pass; a request rejected with the parse,
bootstrap, weak-password or missing-credentials error performs no durable
write and starts no synchronization pass. -/
theorem C6_persist_and_trigger (env : Env) (st : ServerState) (data : SaveRequest) :
    (∀ c, guardPasses env st data →
      mergeCreds env (langConf env st data) data = .ok c →
      c.Username ≠ "" → c.Password ≠ "" →
      (checkAndSave env st (some data)).saveCalls = 1 ∧
      (checkAndSave env st (some data)).runOnceCalls = 1 ∧
      (checkAndSave env st (some data)).state.forceCompare = true) ∧
    ((checkAndSave env st none).saveCalls = 0 ∧
     (checkAndSave env st none).runOnceCalls = 0) ∧
    (¬ guardPasses env st data →
      (checkAndSave env st (some data)).saveCalls = 0 ∧
      (checkAndSave env st (some data)).runOnceCalls = 0) ∧
    (∀ e, mergeCreds env (langConf env st data) data = .error e →
      (checkAndSave env st (some data)).saveCalls = 0 ∧
      (checkAndSave env st (some data)).runOnceCalls = 0) ∧
    (∀ c, mergeCreds env (langConf env st data) data = .ok c →
      (c.Username = "" ∨ c.Password = "") →
      (checkAndSave env st (some data)).saveCalls = 0 ∧
      (checkAndSave env st (some data)).runOnceCalls = 0) := by
  refine ⟨?_, ⟨rfl, rfl⟩, ?_, ?_, ?_⟩
  · intro c hg hmc hu hp
    rw [checkAndSave_passes env st data hg, afterGuard_ok env st _ data c hmc,
      afterCreds_save env st c data hu hp]
    exact ⟨rfl, rfl, rfl⟩
  · intro hg
    rcases checkAndSave_guard_reject env st data hg with h1 | h1 <;>
      rw [h1] <;> exact ⟨rfl, rfl⟩
  · intro e hmc
    by_cases hg : guardPasses env st data
    · rw [checkAndSave_passes env st data hg, afterGuard_error env st _ data e hmc]
      exact ⟨rfl, rfl⟩
    · rcases checkAndSave_guard_reject env st data hg with h1 | h1 <;>
        rw [h1] <;> exact ⟨rfl, rfl⟩
  · intro c hmc hcr
    by_cases hg : guardPasses env st data
    · rw [checkAndSave_passes env st data hg, afterGuard_ok env st _ data c hmc,
        afterCreds_reject env st c data hcr]
      exact ⟨rfl, rfl⟩
    · rcases checkAndSave_guard_reject env st data hg with h1 | h1 <;>
        rw [h1] <;> exact ⟨rfl, rfl⟩

/-- The configuration produced by merging `reqPwd` into a first run. -/
def c6conf : Config :=
  { Username := "admin", Password := "hash:Secret123", NotAllowWanAccess := true
    WebhookURL := "", WebhookRequestBody := "", WebhookHeaders := ""
    DnsConf := [], Lang := "en" }

/-- Witness for C6: the concrete first-run save performs exactly one durable
write, one sync start and raises the flag; a rejecting password policy leads
to zero writes and zero sync starts. -/
theorem C6_witness :
    ((checkAndSave sampleEnv stNone (some reqPwd)).saveCalls = 1 ∧
     (checkAndSave sampleEnv stNone (some reqPwd)).runOnceCalls = 1 ∧
     (checkAndSave sampleEnv stNone (some reqPwd)).state.forceCompare = true) ∧
    ((checkAndSave envWeak stNeverSet (some reqPwd)).saveCalls = 0 ∧
     (checkAndSave envWeak stNeverSet (some reqPwd)).runOnceCalls = 0) :=
  ⟨(C6_persist_and_trigger sampleEnv stNone reqPwd).1 c6conf (by decide) rfl
     (by decide) (by decide),
   (C6_persist_and_trigger envWeak stNeverSet reqPwd).2.2.2.1 "weak password" rfl⟩

/-- C7: the `Save` handler's response carries exactly the `checkAndSave`
result string ("ok" or the error message), and its `dnsConf` field is the
encoding of the current (post-save cached) domain list when the result is
`"ok"` and the literal `"[]"` whenever it is not. -/
theorem C7_response_shape (env : Env) (st : ServerState) (req : Option SaveRequest) :
    (Save env st req).1.result = (checkAndSave env st req).result ∧
    ((checkAndSave env st req).result = "ok" →
      (Save env st req).1.dnsConf =
        env.getDnsConfStr
          (((checkAndSave env st req).state.cachedConf.getD defaultConfig).DnsConf)) ∧
    ((checkAndSave env st req).result ≠ "ok" → (Save env st req).1.dnsConf = "[]") := by
  refine ⟨rfl, ?_, ?_⟩
  · intro h
    show (if (checkAndSave env st req).result = "ok" then _ else _) = _
    rw [if_pos h]
  · intro h
    show (if (checkAndSave env st req).result = "ok" then _ else _) = "[]"
    rw [if_neg h]

/-- Witness for C7: the successful first-run save answers with the encoded
domain list, the expired-window save answers with `"[]"`. -/
theorem C7_witness :
    (Save sampleEnv stNone (some reqPwd)).1.dnsConf =
      sampleEnv.getDnsConfStr
        (((checkAndSave sampleEnv stNone (some reqPwd)).state.cachedConf.getD
          defaultConfig).DnsConf) ∧
    (Save envLate stNone (some reqPwd)).1.dnsConf = "[]" :=
  ⟨(C7_response_shape sampleEnv stNone (some reqPwd)).2.1 (by decide),
   (C7_response_shape envLate stNone (some reqPwd)).2.2 (by decide)⟩

/-- C9: for a configuration a successful save leaves cached (the durable
write was invoked and the result was `"ok"`), re-submitting the masked form
of its domain list — each entry's ID and Secret replaced by their masked
forms, every other field echoed back, domain lists re-joined as text — merges
to the identical `DnsConf` sequence. -/
theorem C9_masked_resubmit_idempotent (env : Env) (st : ServerState) (data : SaveRequest)
    (c : Config)
    (hsv : (checkAndSave env st (some data)).saveCalls = 1)
    (hok : (checkAndSave env st (some data)).result = "ok")
    (hc : (checkAndSave env st (some data)).state.cachedConf = some c) :
    (mergeLoop c.DnsConf 0 (c.DnsConf.map maskDTO)).1 = c.DnsConf := by
  rcases checkAndSave_cases env st (some data) with
    ⟨msg, hr, _⟩ | ⟨d2, conf, hd2, hu, hp, hmc, hr⟩
  · rw [hr] at hsv
    simp [reject] at hsv
  · rw [hr, afterCreds_save env st conf d2 hu hp] at hc
    simp only [Option.some.injEq] at hc
    rw [← hc]
    exact remerge_fixed conf.DnsConf d2.DnsConf

/-- The cached configuration after the concrete first-run save of `reqPwd`. -/
def c9conf : Config :=
  { Username := "admin", Password := "hash:Secret123", NotAllowWanAccess := true
    WebhookURL := "", WebhookRequestBody := "", WebhookHeaders := ""
    DnsConf := [mergeOne [] 0 sampleDTO], Lang := "en" }

/-- Witness for C9 on the concrete saved configuration. -/
theorem C9_witness :
    (mergeLoop c9conf.DnsConf 0 (c9conf.DnsConf.map maskDTO)).1 = c9conf.DnsConf :=
  C9_masked_resubmit_idempotent sampleEnv stNone reqPwd c9conf
    (by decide) (by decide) (by decide)

end DdnsGo
